import Mathlib

/-!
Verification of the recurring-deadline calculator of `client/src/pages/home.tsx`:
the functions `getNextFriday5pmPstUtcMs` and `formatCountdown`.

The TypeScript source delegates all civil-calendar and time-zone work to the
host environment (`Date.UTC`, `Intl.DateTimeFormat` with time zone
`America/Los_Angeles`).  That environment is modelled explicitly here:

* instants are epoch milliseconds (`ℤ`, day 0 = 1970-01-01 UTC);
* the proleptic Gregorian calendar maps day numbers to civil dates and back;
* the zone `America/Los_Angeles` is modelled with its current (post-2007)
  United States daylight-saving rules extended over the whole timeline:
  UTC-8 in standard time and UTC-7 from the second Sunday in March at
  02:00 local standard time (10:00 UTC) until the first Sunday in November
  at 02:00 local daylight time (09:00 UTC);
* `Intl.DateTimeFormat(... hour12: false).formatToParts` is modelled as exact
  civil-field extraction in that zone (hour cycle `h23`), and an invalid
  (non-finite) date value makes formatting throw, modelled by `Except.error`;
* `Date.UTC` is modelled for arbitrary integer arguments with JavaScript's
  month/day rollover; the legacy two-digit-year quirk (years 0-99 mapping to
  1900-1999) is not modelled.

On `ℤ`, `/` and `%` are Euclidean division and remainder, which agree with
floor division and a nonnegative remainder for the positive divisors used
throughout, matching JavaScript's `Math.floor`-based day/field arithmetic.
-/

/-- Days from the start of a 400-year Gregorian era (eras start on March 1 of
years divisible by 400) to the start of year-of-era `u`: each year has 365
days plus the leap days of the Julian rule minus the century corrections. -/
def gdays (u : ℤ) : ℤ := 365 * u + u / 4 - u / 100

/-- Days from March 1 to the start of shifted month `mp` (0 = March, 1 = April,
…, 11 = February) within one March-started year. -/
def cumd (mp : ℤ) : ℤ := (153 * mp + 2) / 5

/-- Year-of-era containing day-of-era `doe`: the greatest `u ≤ 399` whose first
day is at or before `doe`. -/
def yoeOfDoe (doe : ℤ) : ℤ := (Nat.findGreatest (fun u => gdays u ≤ doe) 399 : ℕ)

/-- Shifted month containing day-of-year `doy`: the greatest `mp ≤ 11` whose
first day is at or before `doy`. -/
def mpOfDoy (doy : ℤ) : ℤ := (Nat.findGreatest (fun mp => cumd mp ≤ doy) 11 : ℕ)

/-- Day-of-era (0 ≤ doe < 146097) of day number `z`: eras are aligned so that
day 0 (1970-01-01) has day-of-era 135080 in era 4. -/
def doeOfDay (z : ℤ) : ℤ := (z + 719468) % 146097

/-- Era of day number `z`. -/
def eraOfDay (z : ℤ) : ℤ := (z + 719468) / 146097

/-- Day-of-March-started-year of a day-of-era. -/
def doyOfDoe (doe : ℤ) : ℤ := doe - gdays (yoeOfDoe doe)

/-- Civil month (1..12) named by a shifted month (0 = March, …, 11 = February). -/
def mOfMp (mp : ℤ) : ℤ := if mp < 10 then mp + 3 else mp - 9

/-- Civil year of proleptic-Gregorian day number `z` (day 0 = 1970-01-01).
Together with `cMonth` and `cDay` this models the calendar used by the host
environment's `Intl.DateTimeFormat` field extraction. -/
def cYear (z : ℤ) : ℤ :=
  eraOfDay z * 400 + yoeOfDoe (doeOfDay z) +
    (if mOfMp (mpOfDoy (doyOfDoe (doeOfDay z))) ≤ 2 then 1 else 0)

/-- Civil month (1..12) of day number `z`. -/
def cMonth (z : ℤ) : ℤ := mOfMp (mpOfDoy (doyOfDoe (doeOfDay z)))

/-- Civil day-of-month (1..31) of day number `z`. -/
def cDay (z : ℤ) : ℤ :=
  doyOfDoe (doeOfDay z) - cumd (mpOfDoy (doyOfDoe (doeOfDay z))) + 1

/-- Day number of the civil date `(y, m, d)`; inverse of `civilFromDays` on
valid dates.  Model of the host environment's `Date.UTC` date arithmetic. -/
def daysFromCivil (y m d : ℤ) : ℤ :=
  (y - (if m ≤ 2 then 1 else 0)) / 400 * 146097 +
    gdays ((y - (if m ≤ 2 then 1 else 0)) % 400) +
    cumd (if 2 < m then m - 3 else m + 9) + (d - 1) - 719468

theorem yoeOfDoe_nonneg (doe : ℤ) : 0 ≤ yoeOfDoe doe := Int.ofNat_nonneg _

theorem yoeOfDoe_le (doe : ℤ) : yoeOfDoe doe ≤ 399 := by
  unfold yoeOfDoe
  exact_mod_cast Nat.findGreatest_le (P := fun u => gdays u ≤ doe) 399

theorem yoeOfDoe_start_le (doe : ℤ) (h0 : 0 ≤ doe) : gdays (yoeOfDoe doe) ≤ doe := by
  unfold yoeOfDoe
  exact Nat.findGreatest_spec (P := fun u : ℕ => gdays u ≤ doe) (Nat.zero_le 399)
    (by unfold gdays; push_cast; omega)

theorem yoeOfDoe_next_gt (doe : ℤ) (h : yoeOfDoe doe ≤ 398) :
    doe < gdays (yoeOfDoe doe + 1) := by
  unfold yoeOfDoe at h ⊢
  set u : ℕ := Nat.findGreatest (fun u : ℕ => gdays u ≤ doe) 399 with hu
  have hult : u + 1 ≤ 399 := by omega
  have h2 := Nat.findGreatest_is_greatest (P := fun u : ℕ => gdays u ≤ doe)
    (k := u + 1) (by omega) hult
  have h3 : ¬ gdays ((u : ℤ) + 1) ≤ doe := by
    intro hc
    exact h2 (by push_cast; exact hc)
  omega

theorem mpOfDoy_nonneg (doy : ℤ) : 0 ≤ mpOfDoy doy := Int.ofNat_nonneg _

theorem mpOfDoy_le (doy : ℤ) : mpOfDoy doy ≤ 11 := by
  unfold mpOfDoy
  exact_mod_cast Nat.findGreatest_le (P := fun mp => cumd mp ≤ doy) 11

theorem mpOfDoy_start_le (doy : ℤ) (h0 : 0 ≤ doy) : cumd (mpOfDoy doy) ≤ doy := by
  unfold mpOfDoy
  exact Nat.findGreatest_spec (P := fun mp : ℕ => cumd mp ≤ doy) (Nat.zero_le 11)
    (by unfold cumd; push_cast; omega)

theorem mpOfDoy_next_gt (doy : ℤ) (h : mpOfDoy doy ≤ 10) :
    doy < cumd (mpOfDoy doy + 1) := by
  unfold mpOfDoy at h ⊢
  set mp : ℕ := Nat.findGreatest (fun mp : ℕ => cumd mp ≤ doy) 11 with hmp
  have hle : mp + 1 ≤ 11 := by omega
  have h2 := Nat.findGreatest_is_greatest (P := fun mp : ℕ => cumd mp ≤ doy)
    (k := mp + 1) (by omega) hle
  have h3 : ¬ cumd ((mp : ℤ) + 1) ≤ doy := by
    intro hc
    exact h2 (by push_cast; exact hc)
  omega

theorem gdays_step (u : ℤ) : gdays u + 364 ≤ gdays (u + 1) ∧ gdays (u + 1) ≤ gdays u + 366 := by
  unfold gdays; omega

theorem doyOfDoe_nonneg (doe : ℤ) (h0 : 0 ≤ doe) : 0 ≤ doyOfDoe doe := by
  have := yoeOfDoe_start_le doe h0
  unfold doyOfDoe; omega

theorem doyOfDoe_le (doe : ℤ) (h0 : 0 ≤ doe) (h1 : doe < 146097) : doyOfDoe doe ≤ 365 := by
  have h2 := yoeOfDoe_le doe
  rcases le_or_lt (yoeOfDoe doe) 398 with h | h
  · have h3 := yoeOfDoe_next_gt doe h
    unfold doyOfDoe gdays at *
    omega
  · unfold doyOfDoe gdays at *
    omega

theorem daysFromCivil_cYMD (z : ℤ) : daysFromCivil (cYear z) (cMonth z) (cDay z) = z := by
  have f1 : 0 ≤ doeOfDay z := by unfold doeOfDay; omega
  have f2 : doeOfDay z < 146097 := by unfold doeOfDay; omega
  have f3 : eraOfDay z * 146097 + doeOfDay z = z + 719468 := by unfold doeOfDay eraOfDay; omega
  have f4 := yoeOfDoe_nonneg (doeOfDay z)
  have f5 := yoeOfDoe_le (doeOfDay z)
  have f6 := yoeOfDoe_start_le (doeOfDay z) f1
  have f7 : 0 ≤ doyOfDoe (doeOfDay z) := doyOfDoe_nonneg _ f1
  have f8 := mpOfDoy_nonneg (doyOfDoe (doeOfDay z))
  have f9 := mpOfDoy_le (doyOfDoe (doeOfDay z))
  have f10 := mpOfDoy_start_le (doyOfDoe (doeOfDay z)) f7
  unfold daysFromCivil cYear cMonth cDay mOfMp
  unfold doyOfDoe at *
  split_ifs <;> (unfold gdays cumd at *) <;> omega

theorem cMonth_bounds (z : ℤ) : 1 ≤ cMonth z ∧ cMonth z ≤ 12 := by
  have f1 : 0 ≤ doeOfDay z := by unfold doeOfDay; omega
  have f7 : 0 ≤ doyOfDoe (doeOfDay z) := doyOfDoe_nonneg _ f1
  have f8 := mpOfDoy_nonneg (doyOfDoe (doeOfDay z))
  have f9 := mpOfDoy_le (doyOfDoe (doeOfDay z))
  unfold cMonth mOfMp
  split_ifs <;> omega

theorem cDay_bounds (z : ℤ) : 1 ≤ cDay z ∧ cDay z ≤ 31 := by
  have f1 : 0 ≤ doeOfDay z := by unfold doeOfDay; omega
  have f2 : doeOfDay z < 146097 := by unfold doeOfDay; omega
  have f7 : 0 ≤ doyOfDoe (doeOfDay z) := doyOfDoe_nonneg _ f1
  have f8 := mpOfDoy_nonneg (doyOfDoe (doeOfDay z))
  have f9 := mpOfDoy_le (doyOfDoe (doeOfDay z))
  have f10 := mpOfDoy_start_le (doyOfDoe (doeOfDay z)) f7
  have f11 := doyOfDoe_le (doeOfDay z) f1 f2
  rcases le_or_lt (mpOfDoy (doyOfDoe (doeOfDay z))) 10 with h | h
  · have f12 := mpOfDoy_next_gt (doyOfDoe (doeOfDay z)) h
    unfold cDay
    unfold cumd at *
    omega
  · unfold cDay
    unfold cumd at *
    omega


theorem gdays_zero : gdays 0 = 0 := by unfold gdays; norm_num

theorem gdays_399 : gdays 399 = 145731 := by unfold gdays; norm_num

theorem dfc_jan1_decomp (E Y : ℤ) (h0 : 1 ≤ Y) (h1 : Y ≤ 400) :
    daysFromCivil (E * 400 + Y) 1 1 = E * 146097 + gdays (Y - 1) + 306 - 719468 := by
  unfold daysFromCivil
  rw [if_pos (by norm_num : (1:ℤ) ≤ 2), if_neg (by norm_num : ¬ (2:ℤ) < 1)]
  have hd : (E * 400 + Y - 1) / 400 = E := by omega
  have hm : (E * 400 + Y - 1) % 400 = Y - 1 := by omega
  rw [hd, hm]
  unfold cumd
  omega

theorem dfc_north_decomp (E Y m d : ℤ) (hm : 3 ≤ m) (hm2 : m ≤ 12) (hY : 0 ≤ Y) (hY1 : Y ≤ 399) :
    daysFromCivil (E * 400 + Y) m d = E * 146097 + gdays Y + cumd (m - 3) + (d - 1) - 719468 := by
  unfold daysFromCivil
  rw [if_neg (by omega : ¬ m ≤ 2), if_pos (by omega : 2 < m)]
  have hd : (E * 400 + Y - 0) / 400 = E := by omega
  have hmm : (E * 400 + Y - 0) % 400 = Y := by omega
  rw [hd, hmm]

theorem cYear_interval (z : ℤ) :
    daysFromCivil (cYear z) 1 1 ≤ z ∧ z < daysFromCivil (cYear z + 1) 1 1 := by
  have f1 : 0 ≤ doeOfDay z := by unfold doeOfDay; omega
  have f2 : doeOfDay z < 146097 := by unfold doeOfDay; omega
  have f3 : eraOfDay z * 146097 + doeOfDay z = z + 719468 := by unfold doeOfDay eraOfDay; omega
  have f4 := yoeOfDoe_nonneg (doeOfDay z)
  have f5 := yoeOfDoe_le (doeOfDay z)
  have f6 := yoeOfDoe_start_le (doeOfDay z) f1
  have f7 : 0 ≤ doyOfDoe (doeOfDay z) := doyOfDoe_nonneg _ f1
  have f8 := mpOfDoy_nonneg (doyOfDoe (doeOfDay z))
  have f9 := mpOfDoy_le (doyOfDoe (doeOfDay z))
  have f10 := mpOfDoy_start_le (doyOfDoe (doeOfDay z)) f7
  have f11 := doyOfDoe_le (doeOfDay z) f1 f2
  have hdoy : doeOfDay z = gdays (yoeOfDoe (doeOfDay z)) + doyOfDoe (doeOfDay z) := by
    unfold doyOfDoe; ring
  have hcy : cYear z = eraOfDay z * 400 + yoeOfDoe (doeOfDay z) +
      (if mOfMp (mpOfDoy (doyOfDoe (doeOfDay z))) ≤ 2 then 1 else 0) := rfl
  by_cases hA : mOfMp (mpOfDoy (doyOfDoe (doeOfDay z))) ≤ 2
  · -- January or February: the civil year is one past the year-of-era base.
    have hmp10 : 10 ≤ mpOfDoy (doyOfDoe (doeOfDay z)) := by
      unfold mOfMp at hA
      split_ifs at hA <;> omega
    have hdoy306 : 306 ≤ doyOfDoe (doeOfDay z) := by
      have h2 : cumd 10 ≤ cumd (mpOfDoy (doyOfDoe (doeOfDay z))) := by
        unfold cumd; omega
      have h3 : cumd 10 = 306 := by unfold cumd; norm_num
      omega
    rw [hcy, if_pos hA]
    constructor
    · rw [show eraOfDay z * 400 + yoeOfDoe (doeOfDay z) + 1 =
          eraOfDay z * 400 + (yoeOfDoe (doeOfDay z) + 1) from by ring,
        dfc_jan1_decomp _ _ (by omega) (by omega),
        show yoeOfDoe (doeOfDay z) + 1 - 1 = yoeOfDoe (doeOfDay z) from by ring]
      omega
    · rcases le_or_lt (yoeOfDoe (doeOfDay z)) 398 with hy | hy
      · have f13 := yoeOfDoe_next_gt (doeOfDay z) hy
        rw [show eraOfDay z * 400 + yoeOfDoe (doeOfDay z) + 1 + 1 =
            eraOfDay z * 400 + (yoeOfDoe (doeOfDay z) + 2) from by ring,
          dfc_jan1_decomp _ _ (by omega) (by omega),
          show yoeOfDoe (doeOfDay z) + 2 - 1 = yoeOfDoe (doeOfDay z) + 1 from by ring]
        omega
      · have hy399 : yoeOfDoe (doeOfDay z) = 399 := by omega
        rw [show eraOfDay z * 400 + yoeOfDoe (doeOfDay z) + 1 + 1 =
            (eraOfDay z + 1) * 400 + 1 from by rw [hy399]; ring,
          dfc_jan1_decomp _ _ (by norm_num) (by norm_num)]
        have hg0 : gdays (1 - 1) = 0 := by unfold gdays; norm_num
        rw [hg0]
        omega
  · -- March to December: the civil year equals the year-of-era base.
    have hmp9 : mpOfDoy (doyOfDoe (doeOfDay z)) ≤ 9 := by
      have := mpOfDoy_nonneg (doyOfDoe (doeOfDay z))
      unfold mOfMp at hA
      split_ifs at hA <;> omega
    have hdoy306 : doyOfDoe (doeOfDay z) < 306 := by
      have h2 := mpOfDoy_next_gt (doyOfDoe (doeOfDay z)) (by omega)
      have h3 : cumd (mpOfDoy (doyOfDoe (doeOfDay z)) + 1) ≤ cumd 10 := by
        unfold cumd; omega
      have h4 : cumd 10 = 306 := by unfold cumd; norm_num
      omega
    rw [hcy, if_neg hA]
    constructor
    · rcases le_or_lt 1 (yoeOfDoe (doeOfDay z)) with hy | hy
      · rw [show eraOfDay z * 400 + yoeOfDoe (doeOfDay z) + 0 =
            eraOfDay z * 400 + yoeOfDoe (doeOfDay z) from by ring,
          dfc_jan1_decomp _ _ (by omega) (by omega)]
        have hstep := gdays_step (yoeOfDoe (doeOfDay z) - 1)
        rw [sub_add_cancel] at hstep
        omega
      · have hy0 : yoeOfDoe (doeOfDay z) = 0 := by omega
        rw [show eraOfDay z * 400 + yoeOfDoe (doeOfDay z) + 0 =
            (eraOfDay z - 1) * 400 + 400 from by rw [hy0]; ring,
          dfc_jan1_decomp _ _ (by norm_num) (by norm_num)]
        have hg399 : gdays (400 - 1) = 145731 := by unfold gdays; norm_num
        rw [hg399]
        have hg0 : gdays (yoeOfDoe (doeOfDay z)) = 0 := by rw [hy0]; exact gdays_zero
        omega
    · rw [show eraOfDay z * 400 + yoeOfDoe (doeOfDay z) + 0 + 1 =
          eraOfDay z * 400 + (yoeOfDoe (doeOfDay z) + 1) from by ring,
        dfc_jan1_decomp _ _ (by omega) (by omega),
        show yoeOfDoe (doeOfDay z) + 1 - 1 = yoeOfDoe (doeOfDay z) from by ring]
      omega

/-- Civil day-of-week of day number `d` (0 = Sunday, …, 6 = Saturday);
day 0 = 1970-01-01 was a Thursday. -/
def dowOfDay (d : ℤ) : ℤ := (d + 4) % 7

/-- First day number with day-of-week Sunday on or after day `d`. -/
def sundayOnOrAfter (d : ℤ) : ℤ := d + (0 - (d + 4)) % 7

/-- Instant (epoch ms) at which daylight-saving time starts in year `y` under
the post-2007 United States rule: second Sunday in March, 02:00 local standard
time, i.e. 10:00 UTC. -/
def dstStartMs (y : ℤ) : ℤ := 86400000 * sundayOnOrAfter (daysFromCivil y 3 8) + 36000000

/-- Instant (epoch ms) at which daylight-saving time ends in year `y` under
the post-2007 United States rule: first Sunday in November, 02:00 local
daylight time, i.e. 09:00 UTC. -/
def dstEndMs (y : ℤ) : ℤ := 86400000 * sundayOnOrAfter (daysFromCivil y 11 1) + 32400000

/-- Civil year (UTC) containing instant `t`. -/
def utcYear (t : ℤ) : ℤ := cYear (t / 86400000)

/-- Whether daylight-saving time is in effect in America/Los_Angeles at
instant `t` (model of the zone database with the post-2007 rules extended
over the whole timeline). -/
def isDst (t : ℤ) : Prop := dstStartMs (utcYear t) ≤ t ∧ t < dstEndMs (utcYear t)

instance isDstDecidable (t : ℤ) : Decidable (isDst t) := instDecidableAnd

/-- UTC offset (ms) of America/Los_Angeles at instant `t`:
UTC-7 during daylight-saving time, UTC-8 otherwise. -/
def laOffset (t : ℤ) : ℤ := if isDst t then -25200000 else -28800000

/-- Local clock (ms scale) of America/Los_Angeles at instant `t`. -/
def localMs (t : ℤ) : ℤ := t + laOffset t

/-- Local civil day number at instant `t`. -/
def laDay (t : ℤ) : ℤ := localMs t / 86400000

/-- Local time-of-day in ms at instant `t`. -/
def laTod (t : ℤ) : ℤ := localMs t % 86400000

/-- Local day-of-week (0 = Sunday, …, 6 = Saturday) at instant `t`. -/
def laDow (t : ℤ) : ℤ := dowOfDay (laDay t)

/-- Local hour (0..23) at instant `t`. -/
def laHour (t : ℤ) : ℤ := laTod t / 3600000

/-- Local minute (0..59) at instant `t`. -/
def laMinute (t : ℤ) : ℤ := laTod t % 3600000 / 60000

/-- Local second (0..59) at instant `t`. -/
def laSecond (t : ℤ) : ℤ := laTod t % 60000 / 1000

/-- Epoch ms of midnight UTC of January 1 of year `y`. -/
def jan1ms (y : ℤ) : ℤ := 86400000 * daysFromCivil y 1 1

theorem laOffset_cases (t : ℤ) : laOffset t = -25200000 ∨ laOffset t = -28800000 := by
  unfold laOffset
  split_ifs <;> simp

theorem dstStartMs_ge_jan1 (y : ℤ) : jan1ms y ≤ dstStartMs y := by
  have hEY : y = y / 400 * 400 + y % 400 := by omega
  have hY0 : 0 ≤ y % 400 := by omega
  have hY1 : y % 400 ≤ 399 := by omega
  have hm8 : daysFromCivil y 3 8 =
      y / 400 * 146097 + gdays (y % 400) + cumd 0 + 7 - 719468 := by
    calc daysFromCivil y 3 8 = daysFromCivil (y / 400 * 400 + y % 400) 3 8 := by rw [← hEY]
    _ = _ := dfc_north_decomp _ _ 3 8 (by norm_num) (by norm_num) hY0 hY1
  have hc0 : cumd 0 = 0 := by unfold cumd; norm_num
  rcases le_or_lt 1 (y % 400) with hy | hy
  · have hj : daysFromCivil y 1 1 =
        y / 400 * 146097 + gdays (y % 400 - 1) + 306 - 719468 := by
      calc daysFromCivil y 1 1 = daysFromCivil (y / 400 * 400 + y % 400) 1 1 := by rw [← hEY]
      _ = _ := dfc_jan1_decomp _ _ (by omega) (by omega)
    have hstep := gdays_step (y % 400 - 1)
    rw [sub_add_cancel] at hstep
    unfold jan1ms dstStartMs sundayOnOrAfter
    rw [hj, hm8, hc0]
    omega
  · have hy0 : y % 400 = 0 := by omega
    have hj : daysFromCivil y 1 1 =
        (y / 400 - 1) * 146097 + gdays (400 - 1) + 306 - 719468 := by
      calc daysFromCivil y 1 1 = daysFromCivil ((y / 400 - 1) * 400 + 400) 1 1 := by
            rw [show (y / 400 - 1) * 400 + 400 = y / 400 * 400 + y % 400 from by rw [hy0]; ring,
              ← hEY]
      _ = _ := dfc_jan1_decomp _ _ (by norm_num) (by norm_num)
    have hg399 : gdays (400 - 1) = 145731 := by unfold gdays; norm_num
    have hg0 : gdays (y % 400) = 0 := by rw [hy0]; exact gdays_zero
    unfold jan1ms dstStartMs sundayOnOrAfter
    rw [hj, hm8, hc0, hg399, hg0]
    omega

theorem dstEndMs_le_jan1 (y : ℤ) : dstEndMs y + 54 * 86400000 ≤ jan1ms (y + 1) := by
  have hEY : y = y / 400 * 400 + y % 400 := by omega
  have hY0 : 0 ≤ y % 400 := by omega
  have hY1 : y % 400 ≤ 399 := by omega
  have hn1 : daysFromCivil y 11 1 =
      y / 400 * 146097 + gdays (y % 400) + cumd 8 + 0 - 719468 := by
    calc daysFromCivil y 11 1 = daysFromCivil (y / 400 * 400 + y % 400) 11 1 := by rw [← hEY]
    _ = _ := dfc_north_decomp _ _ 11 1 (by norm_num) (by norm_num) hY0 hY1
  have hj : daysFromCivil (y + 1) 1 1 =
      y / 400 * 146097 + gdays (y % 400 + 1 - 1) + 306 - 719468 := by
    calc daysFromCivil (y + 1) 1 1
        = daysFromCivil (y / 400 * 400 + (y % 400 + 1)) 1 1 := by
          rw [show y / 400 * 400 + (y % 400 + 1) = y + 1 from by omega]
    _ = _ := dfc_jan1_decomp _ _ (by omega) (by omega)
  have hc8 : cumd 8 = 245 := by unfold cumd; norm_num
  rw [show y % 400 + 1 - 1 = y % 400 from by ring] at hj
  unfold jan1ms dstEndMs sundayOnOrAfter
  rw [hn1, hj, hc8]
  omega

theorem dstStartMs_lt_dstEndMs (y : ℤ) : dstStartMs y + 200 * 86400000 ≤ dstEndMs y := by
  have hEY : y = y / 400 * 400 + y % 400 := by omega
  have hY0 : 0 ≤ y % 400 := by omega
  have hY1 : y % 400 ≤ 399 := by omega
  have hm8 : daysFromCivil y 3 8 =
      y / 400 * 146097 + gdays (y % 400) + cumd 0 + 7 - 719468 := by
    calc daysFromCivil y 3 8 = daysFromCivil (y / 400 * 400 + y % 400) 3 8 := by rw [← hEY]
    _ = _ := dfc_north_decomp _ _ 3 8 (by norm_num) (by norm_num) hY0 hY1
  have hn1 : daysFromCivil y 11 1 =
      y / 400 * 146097 + gdays (y % 400) + cumd 8 + 0 - 719468 := by
    calc daysFromCivil y 11 1 = daysFromCivil (y / 400 * 400 + y % 400) 11 1 := by rw [← hEY]
    _ = _ := dfc_north_decomp _ _ 11 1 (by norm_num) (by norm_num) hY0 hY1
  have hc0 : cumd 0 = 0 := by unfold cumd; norm_num
  have hc8 : cumd 8 = 245 := by unfold cumd; norm_num
  unfold dstStartMs dstEndMs sundayOnOrAfter
  rw [hm8, hn1, hc0, hc8]
  omega

theorem jan1day_mono {y z : ℤ} (h : y ≤ z) : daysFromCivil y 1 1 ≤ daysFromCivil z 1 1 := by
  unfold daysFromCivil gdays cumd
  norm_num
  omega

theorem jan1ms_mono {y z : ℤ} (h : y ≤ z) : jan1ms y ≤ jan1ms z := by
  have := jan1day_mono h
  unfold jan1ms
  omega

theorem utcYear_interval (t : ℤ) : jan1ms (utcYear t) ≤ t ∧ t < jan1ms (utcYear t + 1) := by
  have h := cYear_interval (t / 86400000)
  unfold utcYear jan1ms
  omega

/-- An instant at which the modelled zone changes its UTC offset. -/
def IsTransitionMs (τ : ℤ) : Prop := ∃ y : ℤ, τ = dstStartMs y ∨ τ = dstEndMs y

theorem utcYear_mono {t1 t2 : ℤ} (h : t1 ≤ t2) : utcYear t1 ≤ utcYear t2 := by
  by_contra hlt
  push_neg at hlt
  have h1 := utcYear_interval t1
  have h2 := utcYear_interval t2
  have h3 := jan1ms_mono (show utcYear t2 + 1 ≤ utcYear t1 from by omega)
  omega

theorem isDst_step {t1 t2 : ℤ} (h12 : t1 ≤ t2) (hne : ¬ (isDst t1 ↔ isDst t2)) :
    ∃ τ, IsTransitionMs τ ∧ t1 < τ ∧ τ ≤ t2 := by
  have hy := utcYear_mono h12
  have h1 := utcYear_interval t1
  have h2 := utcYear_interval t2
  rcases eq_or_lt_of_le hy with heq | hlt
  · unfold isDst at hne
    rw [heq] at hne
    have hse := dstStartMs_lt_dstEndMs (utcYear t2)
    by_cases hA : dstStartMs (utcYear t2) ≤ t1 ∧ t1 < dstEndMs (utcYear t2)
    · by_cases hB : dstStartMs (utcYear t2) ≤ t2 ∧ t2 < dstEndMs (utcYear t2)
      · exact absurd (iff_of_true hA hB) hne
      · exact ⟨dstEndMs (utcYear t2), ⟨utcYear t2, Or.inr rfl⟩, by omega, by omega⟩
    · by_cases hB : dstStartMs (utcYear t2) ≤ t2 ∧ t2 < dstEndMs (utcYear t2)
      · exact ⟨dstStartMs (utcYear t2), ⟨utcYear t2, Or.inl rfl⟩, by omega, by omega⟩
      · exact absurd (iff_of_false hA hB) hne
  · by_cases hd1 : isDst t1
    · obtain ⟨hd1a, hd1b⟩ := hd1
      refine ⟨dstEndMs (utcYear t1), ⟨utcYear t1, Or.inr rfl⟩, hd1b, ?_⟩
      have hA2 := dstEndMs_le_jan1 (utcYear t1)
      have hmono := jan1ms_mono (show utcYear t1 + 1 ≤ utcYear t2 from by omega)
      omega
    · by_cases hd2 : isDst t2
      · obtain ⟨hd2a, hd2b⟩ := hd2
        refine ⟨dstStartMs (utcYear t2), ⟨utcYear t2, Or.inl rfl⟩, ?_, hd2a⟩
        have hA1 := dstStartMs_ge_jan1 (utcYear t2)
        have hmono := jan1ms_mono (show utcYear t1 + 1 ≤ utcYear t2 from by omega)
        omega
      · exact absurd (iff_of_false hd1 hd2) hne

theorem laOffset_eq_of_no_transition {t1 t2 : ℤ} (h12 : t1 ≤ t2)
    (h : ∀ τ, IsTransitionMs τ → ¬ (t1 < τ ∧ τ ≤ t2)) : laOffset t1 = laOffset t2 := by
  by_cases hiff : isDst t1 ↔ isDst t2
  · unfold laOffset
    by_cases h1 : isDst t1
    · rw [if_pos h1, if_pos (hiff.mp h1)]
    · rw [if_neg h1, if_neg (fun h2 => h1 (hiff.mpr h2))]
  · obtain ⟨τ, hτ, hlt, hle⟩ := isDst_step h12 hiff
    exact absurd ⟨hlt, hle⟩ (h τ hτ)

theorem transition_shape {τ : ℤ} (h : IsTransitionMs τ) :
    (τ % 86400000 = 36000000 ∨ τ % 86400000 = 32400000) ∧ dowOfDay (τ / 86400000) = 0 := by
  obtain ⟨y, hy | hy⟩ := h <;> subst hy
  · refine ⟨Or.inl ?_, ?_⟩
    · unfold dstStartMs sundayOnOrAfter
      omega
    · unfold dowOfDay dstStartMs sundayOnOrAfter
      omega
  · refine ⟨Or.inr ?_, ?_⟩
    · unfold dstEndMs sundayOnOrAfter
      omega
    · unfold dowOfDay dstEndMs sundayOnOrAfter
      omega

theorem laOffset_const_evening {L u v : ℤ}
    (hu : 86400000 * L + 61200000 ≤ u) (hv : v ≤ 86400000 * L + 90000000) (huv : u ≤ v) :
    laOffset u = laOffset v := by
  apply laOffset_eq_of_no_transition huv
  intro τ hτ hin
  obtain ⟨hmod, hdw⟩ := transition_shape hτ
  unfold dowOfDay at hdw
  omega

theorem laOffset_const_friday {L u v : ℤ} (hdow : dowOfDay L = 5)
    (hu : 86400000 * L + 25200000 ≤ u) (hv : v ≤ 86400000 * L + 90000000) (huv : u ≤ v) :
    laOffset u = laOffset v := by
  apply laOffset_eq_of_no_transition huv
  intro τ hτ hin
  obtain ⟨hmod, hdw⟩ := transition_shape hτ
  unfold dowOfDay at hdw hdow
  omega

/-- The weekday map of the source (`wdMap` in `home.tsx`): short en-US weekday
names to 0..6. -/
def wdMap (w : String) : Option ℤ :=
  if w = "Sun" then some 0 else if w = "Mon" then some 1 else if w = "Tue" then some 2
  else if w = "Wed" then some 3 else if w = "Thu" then some 4 else if w = "Fri" then some 5
  else if w = "Sat" then some 6 else none

/-- Short en-US weekday name produced by the host environment's
`Intl.DateTimeFormat` for day-of-week `d`. -/
def wdName (d : ℤ) : String :=
  if d = 0 then "Sun" else if d = 1 then "Mon" else if d = 2 then "Tue"
  else if d = 3 then "Wed" else if d = 4 then "Thu" else if d = 5 then "Fri" else "Sat"

/-- Model of `Date.UTC(y, m, d, h, 0, 0)` (month `m` 0-based, with JavaScript's
month and day rollover for out-of-range values).  The legacy mapping of years
0-99 to 1900-1999 is not modelled. -/
def jsDateUTC (y m d h : ℤ) : ℤ :=
  86400000 * (daysFromCivil (y + m / 12) (m % 12 + 1) 1 + (d - 1)) + 3600000 * h

/-- Source: `const pstDow = wdMap[weekday] ?? 0;` where `weekday` is the
zone-formatted short weekday name of `now`. -/
def pstDowOf (t : ℤ) : ℤ := (wdMap (wdName (laDow t))).getD 0

/-- Source: `let daysUntilFri = (5 - pstDow + 7) % 7;` followed by
`if (pstDow === 5 && (hour > 17 || (hour === 17 && minute >= 0))) daysUntilFri = 7;`. -/
def daysUntilFriOf (t : ℤ) : ℤ :=
  if pstDowOf t = 5 ∧ (17 < laHour t ∨ (laHour t = 17 ∧ 0 ≤ laMinute t)) then 7
  else (5 - pstDowOf t + 7) % 7

/-- Source: `const basePstDate = new Date(Date.UTC(year, month - 1, day, 12, 0, 0));`
with `year`, `month`, `day` the zone-formatted civil fields of `now`. -/
def basePstDateOf (t : ℤ) : ℤ :=
  jsDateUTC (cYear (laDay t)) (cMonth (laDay t) - 1) (cDay (laDay t)) 12

/-- Source: `const targetPstMidday = new Date(basePstDate.getTime() + daysUntilFri * 24 * 60 * 60 * 1000);`. -/
def targetPstMiddayOf (t : ℤ) : ℤ := basePstDateOf t + daysUntilFriOf t * 86400000

/-- Source: `const approxUtc = new Date(Date.UTC(ty, tm - 1, td, 17, 0, 0));`
with `ty`, `tm`, `td` the zone-formatted civil fields of `targetPstMidday`. -/
def approxUtcOf (t : ℤ) : ℤ :=
  jsDateUTC (cYear (laDay (targetPstMiddayOf t))) (cMonth (laDay (targetPstMiddayOf t)) - 1)
    (cDay (laDay (targetPstMiddayOf t))) 17

/-- Embedding of the source function `getNextFriday5pmPstUtcMs` of
`client/src/pages/home.tsx` (lines 325-388): `pstH`/`pstM` are the
zone-formatted hour and minute of `approxUtc`, `diffMinutes`
is `(17 - pstH) * 60 + (0 - pstM)`, and the result is
`approxUtc.getTime() + diffMinutes * 60 * 1000`. -/
def getNextFriday5pmPstUtcMs (t : ℤ) : ℤ :=
  approxUtcOf t +
    ((17 - laHour (approxUtcOf t)) * 60 + (0 - laMinute (approxUtcOf t))) * 60000

/-- Deadline instant determined by the target local day alone: local 17:00 of
day `T`, as computed by the correction step of the source. -/
def deadlineOfDay (T : ℤ) : ℤ :=
  86400000 * T + 61200000 +
    ((17 - laHour (86400000 * T + 61200000)) * 60 +
      (0 - laMinute (86400000 * T + 61200000))) * 60000

theorem wdMap_wdName (d : ℤ) (h0 : 0 ≤ d) (h1 : d < 7) : (wdMap (wdName d)).getD 0 = d := by
  interval_cases d <;> rfl

theorem laDow_bounds (t : ℤ) : 0 ≤ laDow t ∧ laDow t < 7 := by
  unfold laDow dowOfDay
  omega

theorem laTod_bounds (t : ℤ) : 0 ≤ laTod t ∧ laTod t < 86400000 := by
  unfold laTod
  omega

theorem localMs_day_tod (t : ℤ) : localMs t = 86400000 * laDay t + laTod t := by
  unfold laDay laTod
  omega

theorem laMinute_nonneg (t : ℤ) : 0 ≤ laMinute t := by
  have := laTod_bounds t
  unfold laMinute
  omega

theorem pstDowOf_eq (t : ℤ) : pstDowOf t = laDow t := by
  unfold pstDowOf
  exact wdMap_wdName _ (laDow_bounds t).1 (laDow_bounds t).2

theorem laHour_tod (t : ℤ) : laHour t = laTod t / 3600000 := rfl

theorem daysUntilFri_cases (t : ℤ) :
    (laDow t = 5 ∧ 17 ≤ laHour t ∧ daysUntilFriOf t = 7) ∨
    (¬(laDow t = 5 ∧ 17 ≤ laHour t) ∧ daysUntilFriOf t = (5 - laDow t + 7) % 7) := by
  have hmin := laMinute_nonneg t
  unfold daysUntilFriOf
  rw [pstDowOf_eq]
  by_cases h : laDow t = 5 ∧ (17 < laHour t ∨ (laHour t = 17 ∧ 0 ≤ laMinute t))
  · left
    rw [if_pos h]
    exact ⟨h.1, by omega, rfl⟩
  · right
    rw [if_neg h]
    refine ⟨fun hc => h ⟨hc.1, by omega⟩, rfl⟩

theorem laDay_shift (T c : ℤ) (hc1 : 28800000 ≤ c) (hc2 : c < 86400000) :
    laDay (86400000 * T + c) = T ∧
      laTod (86400000 * T + c) = c + laOffset (86400000 * T + c) := by
  have hoff := laOffset_cases (86400000 * T + c)
  unfold laDay laTod localMs
  constructor <;> omega

theorem basePstDateOf_eq (t : ℤ) : basePstDateOf t = 86400000 * laDay t + 43200000 := by
  unfold basePstDateOf jsDateUTC
  have hmb := cMonth_bounds (laDay t)
  have hdr : (cMonth (laDay t) - 1) / 12 = 0 := by omega
  have hmr : (cMonth (laDay t) - 1) % 12 = cMonth (laDay t) - 1 := by omega
  rw [hdr, hmr, show cMonth (laDay t) - 1 + 1 = cMonth (laDay t) from by ring, add_zero]
  have hshift : daysFromCivil (cYear (laDay t)) (cMonth (laDay t)) 1 + (cDay (laDay t) - 1)
      = daysFromCivil (cYear (laDay t)) (cMonth (laDay t)) (cDay (laDay t)) := by
    unfold daysFromCivil
    ring
  rw [hshift, daysFromCivil_cYMD]
  ring

theorem targetPstMidday_eq (t : ℤ) :
    targetPstMiddayOf t = 86400000 * (laDay t + daysUntilFriOf t) + 43200000 := by
  unfold targetPstMiddayOf
  rw [basePstDateOf_eq]
  ring

theorem laDay_targetPstMidday (t : ℤ) :
    laDay (targetPstMiddayOf t) = laDay t + daysUntilFriOf t := by
  rw [targetPstMidday_eq]
  exact (laDay_shift _ 43200000 (by norm_num) (by norm_num)).1

theorem approxUtc_eq (t : ℤ) :
    approxUtcOf t = 86400000 * (laDay t + daysUntilFriOf t) + 61200000 := by
  unfold approxUtcOf jsDateUTC
  have hmb := cMonth_bounds (laDay (targetPstMiddayOf t))
  have hdr : (cMonth (laDay (targetPstMiddayOf t)) - 1) / 12 = 0 := by omega
  have hmr : (cMonth (laDay (targetPstMiddayOf t)) - 1) % 12
      = cMonth (laDay (targetPstMiddayOf t)) - 1 := by omega
  rw [hdr, hmr,
    show cMonth (laDay (targetPstMiddayOf t)) - 1 + 1 = cMonth (laDay (targetPstMiddayOf t))
      from by ring, add_zero]
  have hshift : daysFromCivil (cYear (laDay (targetPstMiddayOf t)))
        (cMonth (laDay (targetPstMiddayOf t))) 1 + (cDay (laDay (targetPstMiddayOf t)) - 1)
      = daysFromCivil (cYear (laDay (targetPstMiddayOf t)))
        (cMonth (laDay (targetPstMiddayOf t))) (cDay (laDay (targetPstMiddayOf t))) := by
    unfold daysFromCivil
    ring
  rw [hshift, daysFromCivil_cYMD, laDay_targetPstMidday]
  ring

theorem getNextFriday_eq_deadlineOfDay (t : ℤ) :
    getNextFriday5pmPstUtcMs t = deadlineOfDay (laDay t + daysUntilFriOf t) := by
  unfold getNextFriday5pmPstUtcMs deadlineOfDay
  rw [approxUtc_eq]

theorem deadlineOfDay_localMs (T : ℤ) :
    localMs (deadlineOfDay T) = 86400000 * T + 61200000 := by
  have hta := (laDay_shift T 61200000 (by norm_num) (by norm_num)).2
  rcases laOffset_cases (86400000 * T + 61200000) with ho | ho
  · have hh : laHour (86400000 * T + 61200000) = 10 := by
      unfold laHour
      rw [hta, ho]
      omega
    have hm : laMinute (86400000 * T + 61200000) = 0 := by
      unfold laMinute
      rw [hta, ho]
      omega
    have hdl : deadlineOfDay T = 86400000 * T + 61200000 + 25200000 := by
      unfold deadlineOfDay
      rw [hh, hm]
      ring
    have hconst : laOffset (86400000 * T + 61200000)
        = laOffset (86400000 * T + 61200000 + 25200000) :=
      laOffset_const_evening (L := T) (by omega) (by omega) (by omega)
    unfold localMs
    rw [hdl, ← hconst, ho]
    ring
  · have hh : laHour (86400000 * T + 61200000) = 9 := by
      unfold laHour
      rw [hta, ho]
      omega
    have hm : laMinute (86400000 * T + 61200000) = 0 := by
      unfold laMinute
      rw [hta, ho]
      omega
    have hdl : deadlineOfDay T = 86400000 * T + 61200000 + 28800000 := by
      unfold deadlineOfDay
      rw [hh, hm]
      ring
    have hconst : laOffset (86400000 * T + 61200000)
        = laOffset (86400000 * T + 61200000 + 28800000) :=
      laOffset_const_evening (L := T) (by omega) (by omega) (by omega)
    unfold localMs
    rw [hdl, ← hconst, ho]
    ring

theorem laDay_deadlineOfDay (T : ℤ) : laDay (deadlineOfDay T) = T := by
  have h := deadlineOfDay_localMs T
  unfold laDay
  rw [h]
  omega

theorem laTod_deadlineOfDay (T : ℤ) : laTod (deadlineOfDay T) = 61200000 := by
  have h := deadlineOfDay_localMs T
  unfold laTod
  rw [h]
  omega

theorem target_dow_friday (t : ℤ) : dowOfDay (laDay t + daysUntilFriOf t) = 5 := by
  rcases daysUntilFri_cases t with ⟨hd, hh, hk⟩ | ⟨hc, hk⟩ <;>
    (rw [hk]
     unfold laDow dowOfDay at *
     omega)

theorem deadline_gt (t : ℤ) : t < getNextFriday5pmPstUtcMs t := by
  rw [getNextFriday_eq_deadlineOfDay]
  have hdl := deadlineOfDay_localMs (laDay t + daysUntilFriOf t)
  have hlt := localMs_day_tod t
  have htb := laTod_bounds t
  have ho1 := laOffset_cases t
  have ho2 := laOffset_cases (deadlineOfDay (laDay t + daysUntilFriOf t))
  rcases daysUntilFri_cases t with ⟨hd, hh, hk⟩ | ⟨hc, hk⟩
  · unfold localMs at hdl hlt
    omega
  · have hdowb := laDow_bounds t
    by_cases hk0 : daysUntilFriOf t = 0
    · have hdow5 : laDow t = 5 := by omega
      have hh17 : laHour t < 17 := by
        by_contra hge
        exact hc ⟨hdow5, by omega⟩
      have htod17 : laTod t < 61200000 := by
        have hht : laHour t = laTod t / 3600000 := rfl
        omega
      have hdow5' : dowOfDay (laDay t) = 5 := hdow5
      rw [hk0, add_zero] at hdl ho2 ⊢
      have ht_eq : t = 86400000 * laDay t + laTod t - laOffset t := by
        unfold localMs at hlt
        omega
      have hdl_eq : deadlineOfDay (laDay t)
          = 86400000 * laDay t + 61200000 - laOffset (deadlineOfDay (laDay t)) := by
        unfold localMs at hdl
        omega
      have hoff_eq : laOffset t = laOffset (deadlineOfDay (laDay t)) := by
        rcases le_or_lt t (deadlineOfDay (laDay t)) with hle | hgt
        · exact laOffset_const_friday (L := laDay t) hdow5'
            (by omega) (by omega) hle
        · exact (laOffset_const_friday (L := laDay t) hdow5'
            (by omega) (by omega) (le_of_lt hgt)).symm
      omega
    · have hknn : 0 ≤ (5 - laDow t + 7) % 7 := by omega
      have hk1 : 1 ≤ daysUntilFriOf t := by omega
      have hk6 : daysUntilFriOf t ≤ 7 := by
        rw [hk]
        omega
      unfold localMs at hdl hlt
      omega

/-- Instants lying exactly on a weekly deadline: local civil Friday at
exactly 17:00:00.000 in the modelled zone. -/
def isWeeklyDeadline (t : ℤ) : Prop := laDow t = 5 ∧ laTod t = 61200000

instance isWeeklyDeadlineDecidable (t : ℤ) : Decidable (isWeeklyDeadline t) :=
  instDecidableAnd

/-- C1: for every valid input instant `t`, the deadline returned by
`getNextFriday5pmPstUtcMs t` denotes an instant whose civil representation in
the fixed America/Los_Angeles zone is a Friday at exactly 17:00:00 (hour 17,
zero minutes, zero seconds). -/
theorem c1_deadline_is_friday_5pm (t : ℤ) :
    laDow (getNextFriday5pmPstUtcMs t) = 5 ∧
    laHour (getNextFriday5pmPstUtcMs t) = 17 ∧
    laMinute (getNextFriday5pmPstUtcMs t) = 0 ∧
    laSecond (getNextFriday5pmPstUtcMs t) = 0 := by
  rw [getNextFriday_eq_deadlineOfDay]
  have hday := laDay_deadlineOfDay (laDay t + daysUntilFriOf t)
  have htod := laTod_deadlineOfDay (laDay t + daysUntilFriOf t)
  have hdow := target_dow_friday t
  refine ⟨?_, ?_, ?_, ?_⟩
  · unfold laDow
    rw [hday]
    exact hdow
  · unfold laHour
    rw [htod]
    omega
  · unfold laMinute
    rw [htod]
    omega
  · unfold laSecond
    rw [htod]
    omega

/-- C2: the computed deadline is strictly in the future for every instant,
and for an instant lying exactly on a weekly deadline the result is the
Friday 17:00:00 of the following week (local day exactly 7 later, local
time-of-day exactly 17:00), never the instant itself. -/
theorem c2_strictly_future (t : ℤ) :
    t < getNextFriday5pmPstUtcMs t ∧
    (isWeeklyDeadline t →
      laDay (getNextFriday5pmPstUtcMs t) = laDay t + 7 ∧
      laTod (getNextFriday5pmPstUtcMs t) = 61200000) := by
  refine ⟨deadline_gt t, fun hwk => ?_⟩
  obtain ⟨hd, htod⟩ := hwk
  have hk : daysUntilFriOf t = 7 := by
    unfold daysUntilFriOf
    rw [pstDowOf_eq]
    rw [if_pos ?hc]
    case hc =>
      refine ⟨hd, Or.inr ⟨?_, laMinute_nonneg t⟩⟩
      show laTod t / 3600000 = 17
      rw [htod]
      omega
  rw [getNextFriday_eq_deadlineOfDay, hk, laDay_deadlineOfDay, laTod_deadlineOfDay]
  exact ⟨rfl, rfl⟩

/-- C3: the number of civil days from the Pacific date of `t` to the Pacific
date of the computed deadline is 7 when `t` is a local Friday at or after
17:00 local time, and `(5 - dow) mod 7` otherwise. -/
theorem c3_days_until_friday (t : ℤ) :
    laDay (getNextFriday5pmPstUtcMs t) - laDay t =
      if laDow t = 5 ∧ 17 ≤ laHour t then 7 else (5 - laDow t) % 7 := by
  rw [getNextFriday_eq_deadlineOfDay, laDay_deadlineOfDay]
  rcases daysUntilFri_cases t with ⟨hd, hh, hk⟩ | ⟨hc, hk⟩
  · rw [if_pos ⟨hd, hh⟩, hk]
    ring
  · rw [if_neg hc, hk]
    have := laDow_bounds t
    omega

/-- C4: even when the zone offset differs between `t` and the computed
deadline (a daylight-saving transition lies between them), the result still
corresponds to wall-clock 17:00:00 on the target civil date, and the instant
is obtained with the offset in effect at the deadline instant itself (the
target date), not the offset in effect at `t`. -/
theorem c4_dst_correct (t : ℤ) (h : laOffset t ≠ laOffset (getNextFriday5pmPstUtcMs t)) :
    laTod (getNextFriday5pmPstUtcMs t) = 61200000 ∧
    laDay (getNextFriday5pmPstUtcMs t) = laDay t + daysUntilFriOf t ∧
    getNextFriday5pmPstUtcMs t =
      86400000 * (laDay t + daysUntilFriOf t) + 61200000
        - laOffset (getNextFriday5pmPstUtcMs t) := by
  have h1 := getNextFriday_eq_deadlineOfDay t
  have h2 := deadlineOfDay_localMs (laDay t + daysUntilFriOf t)
  rw [h1]
  refine ⟨laTod_deadlineOfDay _, laDay_deadlineOfDay _, ?_⟩
  unfold localMs at h2
  omega

/-- Sunday-started civil week index of the local Pacific day of instant `t`. -/
def weekOf (t : ℤ) : ℤ := (laDay t + 4) / 7

/-- Instant `t` lies before its week's Friday 17:00:00 local boundary. -/
def beforeFridayBoundary (t : ℤ) : Prop :=
  laDow t < 5 ∨ (laDow t = 5 ∧ laTod t < 61200000)

instance beforeFridayBoundaryDecidable (t : ℤ) : Decidable (beforeFridayBoundary t) :=
  instDecidableOr

theorem target_of_before_boundary (t : ℤ) (hb : beforeFridayBoundary t) :
    laDay t + daysUntilFriOf t = 7 * weekOf t + 1 := by
  have hdowb := laDow_bounds t
  have htb := laTod_bounds t
  rcases daysUntilFri_cases t with ⟨hd, hh, hk⟩ | ⟨hc, hk⟩
  · exfalso
    have hht : laHour t = laTod t / 3600000 := rfl
    rcases hb with h5 | ⟨h5, ht⟩ <;> omega
  · rw [hk]
    have hble : laDow t ≤ 5 := by
      rcases hb with h5 | ⟨h5, ht⟩ <;> omega
    unfold weekOf laDow dowOfDay at *
    omega

/-- C6: any two instants in the same Pacific civil week, both before that
week's Friday 17:00:00 boundary, get the same deadline. -/
theorem c6_idempotence_window (t1 t2 : ℤ) (hw : weekOf t1 = weekOf t2)
    (h1 : beforeFridayBoundary t1) (h2 : beforeFridayBoundary t2) :
    getNextFriday5pmPstUtcMs t1 = getNextFriday5pmPstUtcMs t2 := by
  rw [getNextFriday_eq_deadlineOfDay, getNextFriday_eq_deadlineOfDay,
    target_of_before_boundary t1 h1, target_of_before_boundary t2 h2, hw]

/-- C9: the computed deadline depends on the input instant only through its
Pacific civil fields down to the minute (year, month, day, weekday, hour,
minute); seconds and milliseconds of the input never matter. -/
theorem c9_fields_determine (t1 t2 : ℤ)
    (hy : cYear (laDay t1) = cYear (laDay t2))
    (hm : cMonth (laDay t1) = cMonth (laDay t2))
    (hd : cDay (laDay t1) = cDay (laDay t2))
    (hw : laDow t1 = laDow t2)
    (hh : laHour t1 = laHour t2)
    (hmin : laMinute t1 = laMinute t2) :
    getNextFriday5pmPstUtcMs t1 = getNextFriday5pmPstUtcMs t2 := by
  have hday : laDay t1 = laDay t2 := by
    have r1 := daysFromCivil_cYMD (laDay t1)
    have r2 := daysFromCivil_cYMD (laDay t2)
    rw [hy, hm, hd] at r1
    omega
  have hk : daysUntilFriOf t1 = daysUntilFriOf t2 := by
    unfold daysUntilFriOf pstDowOf
    rw [hw, hh, hmin]
  rw [getNextFriday_eq_deadlineOfDay, getNextFriday_eq_deadlineOfDay, hday, hk]

/-- Model of JavaScript `String.prototype.padStart(2, "0")`. -/
def padStart2 (s : String) : String :=
  if s.length = 0 then "00" else if s.length = 1 then "0" ++ s else s

/-- Source: `const pad = (n) => n.toString().padStart(2, "0");`. -/
def pad (n : ℤ) : String := padStart2 (toString n)

/-- Source: `const total = Math.max(0, Math.floor(ms / 1000));`. -/
def cdTotal (ms : ℤ) : ℤ := max 0 (ms / 1000)

/-- Source: `const dd = Math.floor(total / 86400);`. -/
def cdDays (ms : ℤ) : ℤ := cdTotal ms / 86400

/-- Source: `const hh = Math.floor((total % 86400) / 3600);`. -/
def cdHours (ms : ℤ) : ℤ := cdTotal ms % 86400 / 3600

/-- Source: `const mm = Math.floor((total % 3600) / 60);`. -/
def cdMinutes (ms : ℤ) : ℤ := cdTotal ms % 3600 / 60

/-- Source: `const ss = total % 60;`. -/
def cdSeconds (ms : ℤ) : ℤ := cdTotal ms % 60

/-- Embedding of the source function `formatCountdown` of
`client/src/pages/home.tsx` (lines 390-400). -/
def formatCountdown (ms : ℤ) : String :=
  if 0 < cdDays ms then
    toString (cdDays ms) ++ "d " ++ pad (cdHours ms) ++ "h " ++ pad (cdMinutes ms) ++ "m "
      ++ pad (cdSeconds ms) ++ "s"
  else
    pad (cdHours ms) ++ "h " ++ pad (cdMinutes ms) ++ "m " ++ pad (cdSeconds ms) ++ "s"

theorem cdTotal_nonneg (ms : ℤ) : 0 ≤ cdTotal ms := le_max_left 0 _

theorem cdTotal_eq (ms : ℤ) : cdTotal ms = max 0 ms / 1000 := by
  unfold cdTotal
  rcases le_total ms 0 with h | h
  · rw [max_eq_left (by omega : ms / 1000 ≤ 0), max_eq_left h]
    omega
  · rw [max_eq_right (by omega : 0 ≤ ms / 1000), max_eq_right h]

/-- C10: `formatCountdown` is total over all integer millisecond inputs: the
displayed components decompose `max 0 ms / 1000` exactly, with hours below
24, minutes and seconds below 60; every nonpositive input renders
`"00h 00m 00s"`. -/
theorem c10_formatCountdown_total (ms : ℤ) :
    86400 * cdDays ms + 3600 * cdHours ms + 60 * cdMinutes ms + cdSeconds ms
        = max 0 ms / 1000 ∧
    0 ≤ cdHours ms ∧ cdHours ms < 24 ∧ 0 ≤ cdMinutes ms ∧ cdMinutes ms < 60 ∧
    0 ≤ cdSeconds ms ∧ cdSeconds ms < 60 ∧
    (ms ≤ 0 → formatCountdown ms = "00h 00m 00s") := by
  have h0 := cdTotal_nonneg ms
  have ht := cdTotal_eq ms
  refine ⟨?_, ?_, ?_, ?_, ?_, ?_, ?_, ?_⟩
  · rw [← ht]
    unfold cdDays cdHours cdMinutes cdSeconds
    omega
  · unfold cdHours
    omega
  · unfold cdHours
    omega
  · unfold cdMinutes
    omega
  · unfold cdMinutes
    omega
  · unfold cdSeconds
    omega
  · unfold cdSeconds
    omega
  · intro hms
    have hz : cdTotal ms = 0 := by
      rw [ht, max_eq_left hms]
      omega
    have hdz : cdDays ms = 0 := by unfold cdDays; omega
    have hhz : cdHours ms = 0 := by unfold cdHours; omega
    have hmz : cdMinutes ms = 0 := by unfold cdMinutes; omega
    have hsz : cdSeconds ms = 0 := by unfold cdSeconds; omega
    unfold formatCountdown
    rw [hdz, hhz, hmz, hsz]
    rfl

/-- C7: the countdown rendered from `D(t) - t` never has a negative
component; the duration is floored to whole seconds (the `max` clamp is
inactive because the deadline is strictly in the future); the leading day
count is omitted when it is zero, leaving the zero-padded
hours/minutes/seconds rendering; and one second before the deadline it
renders `"00h 00m 01s"`. -/
theorem c7_countdown (t : ℤ) :
    0 ≤ cdDays (getNextFriday5pmPstUtcMs t - t) ∧
    0 ≤ cdHours (getNextFriday5pmPstUtcMs t - t) ∧
    0 ≤ cdMinutes (getNextFriday5pmPstUtcMs t - t) ∧
    0 ≤ cdSeconds (getNextFriday5pmPstUtcMs t - t) ∧
    cdTotal (getNextFriday5pmPstUtcMs t - t) = (getNextFriday5pmPstUtcMs t - t) / 1000 ∧
    (cdDays (getNextFriday5pmPstUtcMs t - t) = 0 →
      formatCountdown (getNextFriday5pmPstUtcMs t - t)
        = pad (cdHours (getNextFriday5pmPstUtcMs t - t)) ++ "h "
          ++ pad (cdMinutes (getNextFriday5pmPstUtcMs t - t)) ++ "m "
          ++ pad (cdSeconds (getNextFriday5pmPstUtcMs t - t)) ++ "s") ∧
    (getNextFriday5pmPstUtcMs t - t = 1000 →
      formatCountdown (getNextFriday5pmPstUtcMs t - t) = "00h 00m 01s") := by
  have h0 := cdTotal_nonneg (getNextFriday5pmPstUtcMs t - t)
  have hgt := deadline_gt t
  refine ⟨?_, ?_, ?_, ?_, ?_, fun hd => ?_, fun h => ?_⟩
  · unfold cdDays
    omega
  · unfold cdHours
    omega
  · unfold cdMinutes
    omega
  · unfold cdSeconds
    omega
  · unfold cdTotal
    rw [max_eq_right (by omega : (0:ℤ) ≤ (getNextFriday5pmPstUtcMs t - t) / 1000)]
  · unfold formatCountdown
    rw [if_neg (by omega)]
  · rw [h]
    rfl

/-- Model of calling the source function on a JavaScript `Date`: a non-finite
(invalid) date is `none`; the first `Intl.DateTimeFormat(...).formatToParts`
call throws `RangeError: Invalid time value` on it, so the computation
signals an error instead of producing a deadline. -/
def getNextFriday5pmPstUtcMsOfDate (now : Option ℤ) : Except String ℤ :=
  match now with
  | none => Except.error "RangeError: Invalid time value"
  | some t => Except.ok (getNextFriday5pmPstUtcMs t)

/-- C8: a non-finite input instant is rejected with an error; a deadline
value is produced exactly for the valid inputs (no clamping, no fabricated
deadline for invalid input). -/
theorem c8_invalid_input_rejected :
    getNextFriday5pmPstUtcMsOfDate none = Except.error "RangeError: Invalid time value" ∧
    ∀ o : Option ℤ, (getNextFriday5pmPstUtcMsOfDate o).isOk = o.isSome := by
  refine ⟨rfl, fun o => ?_⟩
  cases o <;> rfl

/-- Source: `const get = (type) => parts.find((p) => p.type === type)?.value;`. -/
def jsFindPart : List (String × String) → String → Option String
  | [], _ => none
  | p :: ps, ty => if p.1 = ty then some p.2 else jsFindPart ps ty

/-- Model of JavaScript `Number(x)` on an optional extracted part value:
`Number(undefined)` is NaN (modelled as `none`), `Number("")` is `0`, a
decimal digit string parses to its value, and any other string is NaN
(signs, decimals and whitespace never occur in the formatted parts). -/
def jsNumber (s : Option String) : Option ℤ :=
  match s with
  | none => none
  | some v =>
    if v.data = [] then some 0
    else if v.data.all (fun c => c.isDigit) then
      some (v.data.foldl (fun n c => n * 10 + ((c.toNat : ℤ) - 48)) 0)
    else none

/-- JavaScript `x > c` where `x` may be NaN (`none`): NaN comparisons are false. -/
def jsGtNum (x : Option ℤ) (c : ℤ) : Bool :=
  match x with
  | some v => decide (c < v)
  | none => false

/-- JavaScript `x === c` where `x` may be NaN: NaN equals nothing. -/
def jsEqNum (x : Option ℤ) (c : ℤ) : Bool :=
  match x with
  | some v => decide (v = c)
  | none => false

/-- JavaScript `x >= c` where `x` may be NaN: NaN comparisons are false. -/
def jsGeNum (x : Option ℤ) (c : ℤ) : Bool :=
  match x with
  | some v => decide (c ≤ v)
  | none => false

/-- Embedding of `getNextFriday5pmPstUtcMs` at the level of the extracted
format parts, keeping the source's handling of missing or unparseable
fields: `String(get("weekday"))` is `"undefined"` when the part is missing,
`wdMap[weekday] ?? 0` silently defaults the weekday to Sunday, NaN hour or
minute make the 17:00 comparison false, and a NaN year, month or day
propagates through `Date.UTC` to an invalid `targetPstMidday`, on which the
second `formatToParts` call throws (`Except.error`). -/
def getNextFriday5pmPstUtcMsOfParts (parts : List (String × String)) : Except String ℤ :=
  match jsNumber (jsFindPart parts "year"), jsNumber (jsFindPart parts "month"),
      jsNumber (jsFindPart parts "day") with
  | some year, some month, some day =>
    let pstDow := (wdMap ((jsFindPart parts "weekday").getD "undefined")).getD 0
    let hour := jsNumber (jsFindPart parts "hour")
    let minute := jsNumber (jsFindPart parts "minute")
    let daysUntilFri :=
      if pstDow = 5 ∧ (jsGtNum hour 17 || (jsEqNum hour 17 && jsGeNum minute 0)) = true then 7
      else (5 - pstDow + 7) % 7
    let targetPstMidday := jsDateUTC year (month - 1) day 12 + daysUntilFri * 86400000
    let approxUtc := jsDateUTC (cYear (laDay targetPstMidday))
        (cMonth (laDay targetPstMidday) - 1) (cDay (laDay targetPstMidday)) 17
    Except.ok (approxUtc + ((17 - laHour approxUtc) * 60 + (0 - laMinute approxUtc)) * 60000)
  | _, _, _ => Except.error "RangeError: Invalid time value"

/-- A well-formed extraction for Wednesday 2026-01-07 10:00 Pacific except
that the weekday part is missing. -/
def c5parts : List (String × String) :=
  [("year", "2026"), ("month", "01"), ("day", "07"),
   ("hour", "10"), ("minute", "00"), ("second", "00")]

/-- C5 amendment: a missing weekday part is silently treated exactly as
Sunday (no error is raised), and only a missing or unparseable year part
makes the computation fail, through the invalid intermediate date. -/
theorem c5_amended_silent_default (parts : List (String × String)) :
    (jsFindPart parts "weekday" = none →
      getNextFriday5pmPstUtcMsOfParts parts
        = getNextFriday5pmPstUtcMsOfParts (("weekday", "Sun") :: parts)) ∧
    (jsNumber (jsFindPart parts "year") = none →
      getNextFriday5pmPstUtcMsOfParts parts = Except.error "RangeError: Invalid time value") := by
  constructor
  · intro hw
    have hy : jsFindPart (("weekday", "Sun") :: parts) "year" = jsFindPart parts "year" := by
      show (if ("weekday", "Sun").1 = "year" then some ("weekday", "Sun").2
          else jsFindPart parts "year") = jsFindPart parts "year"
      rw [if_neg (by decide : ¬ ("weekday", "Sun").1 = "year")]
    have hm : jsFindPart (("weekday", "Sun") :: parts) "month" = jsFindPart parts "month" := by
      show (if ("weekday", "Sun").1 = "month" then some ("weekday", "Sun").2
          else jsFindPart parts "month") = jsFindPart parts "month"
      rw [if_neg (by decide : ¬ ("weekday", "Sun").1 = "month")]
    have hd : jsFindPart (("weekday", "Sun") :: parts) "day" = jsFindPart parts "day" := by
      show (if ("weekday", "Sun").1 = "day" then some ("weekday", "Sun").2
          else jsFindPart parts "day") = jsFindPart parts "day"
      rw [if_neg (by decide : ¬ ("weekday", "Sun").1 = "day")]
    have hh : jsFindPart (("weekday", "Sun") :: parts) "hour" = jsFindPart parts "hour" := by
      show (if ("weekday", "Sun").1 = "hour" then some ("weekday", "Sun").2
          else jsFindPart parts "hour") = jsFindPart parts "hour"
      rw [if_neg (by decide : ¬ ("weekday", "Sun").1 = "hour")]
    have hmin : jsFindPart (("weekday", "Sun") :: parts) "minute" = jsFindPart parts "minute" := by
      show (if ("weekday", "Sun").1 = "minute" then some ("weekday", "Sun").2
          else jsFindPart parts "minute") = jsFindPart parts "minute"
      rw [if_neg (by decide : ¬ ("weekday", "Sun").1 = "minute")]
    have hwd : jsFindPart (("weekday", "Sun") :: parts) "weekday" = some "Sun" := by
      show (if ("weekday", "Sun").1 = "weekday" then some ("weekday", "Sun").2
          else jsFindPart parts "weekday") = some "Sun"
      rw [if_pos (by decide : ("weekday", "Sun").1 = "weekday")]
    unfold getNextFriday5pmPstUtcMsOfParts
    rw [hy, hm, hd, hh, hmin, hwd, hw]
    have hpst : (wdMap ((none : Option String).getD "undefined")).getD 0
        = (wdMap ((some "Sun").getD "undefined")).getD 0 := by rfl
    rw [hpst]
  · intro hy
    unfold getNextFriday5pmPstUtcMsOfParts
    rw [hy]

set_option maxRecDepth 100000 in
set_option maxHeartbeats 2000000 in
/-- C5 counterexample: on an extraction whose weekday part is missing, the
function does not raise an error; it silently substitutes Sunday for the
weekday and returns a deadline value. -/
theorem c5_counterexample_no_error :
    jsFindPart c5parts "weekday" = none ∧
    getNextFriday5pmPstUtcMsOfParts c5parts = Except.ok 1768266000000 := by
  constructor
  · rfl
  · rfl

/-- Witness for C5: the amendment applied at the concrete malformed
extraction `c5parts` and at the empty extraction. -/
theorem c5_amended_witness :
    getNextFriday5pmPstUtcMsOfParts c5parts
      = getNextFriday5pmPstUtcMsOfParts (("weekday", "Sun") :: c5parts) ∧
    getNextFriday5pmPstUtcMsOfParts [] = Except.error "RangeError: Invalid time value" :=
  ⟨(c5_amended_silent_default c5parts).1 rfl, (c5_amended_silent_default []).2 rfl⟩

set_option maxRecDepth 10000 in
set_option maxHeartbeats 1000000 in
/-- Witness for C2 at the weekly deadline instant Friday 2026-01-09 17:00:00
Pacific standard time (epoch ms 1768006800000). -/
theorem c2_witness :
    1768006800000 < getNextFriday5pmPstUtcMs 1768006800000 ∧
    laDay (getNextFriday5pmPstUtcMs 1768006800000) = laDay 1768006800000 + 7 ∧
    laTod (getNextFriday5pmPstUtcMs 1768006800000) = 61200000 := by
  have h := c2_strictly_future 1768006800000
  exact ⟨h.1, h.2 (by decide)⟩

set_option maxRecDepth 10000 in
set_option maxHeartbeats 1000000 in
/-- Witness for C4 at Saturday 2026-03-07 12:00 Pacific standard time, whose
target Friday 2026-03-13 lies beyond the spring daylight-saving transition. -/
theorem c4_witness :
    laTod (getNextFriday5pmPstUtcMs 1772913600000) = 61200000 ∧
    laDay (getNextFriday5pmPstUtcMs 1772913600000)
      = laDay 1772913600000 + daysUntilFriOf 1772913600000 ∧
    getNextFriday5pmPstUtcMs 1772913600000 =
      86400000 * (laDay 1772913600000 + daysUntilFriOf 1772913600000) + 61200000
        - laOffset (getNextFriday5pmPstUtcMs 1772913600000) :=
  c4_dst_correct 1772913600000 (by decide)

set_option maxRecDepth 10000 in
set_option maxHeartbeats 1000000 in
/-- Witness for C6 at Monday 2026-01-05 10:00 and Wednesday 2026-01-07 12:00
Pacific time, both in the same civil week before its Friday boundary. -/
theorem c6_witness :
    getNextFriday5pmPstUtcMs 1767636000000 = getNextFriday5pmPstUtcMs 1767816000000 :=
  c6_idempotence_window 1767636000000 1767816000000 (by decide) (by decide) (by decide)

set_option maxRecDepth 10000 in
set_option maxHeartbeats 1000000 in
/-- Witness for C7 at one second before the deadline of Friday 2026-01-09
17:00:00 Pacific standard time. -/
theorem c7_witness :
    0 ≤ cdDays (getNextFriday5pmPstUtcMs 1768006799000 - 1768006799000) ∧
    formatCountdown (getNextFriday5pmPstUtcMs 1768006799000 - 1768006799000)
      = pad (cdHours (getNextFriday5pmPstUtcMs 1768006799000 - 1768006799000)) ++ "h "
        ++ pad (cdMinutes (getNextFriday5pmPstUtcMs 1768006799000 - 1768006799000)) ++ "m "
        ++ pad (cdSeconds (getNextFriday5pmPstUtcMs 1768006799000 - 1768006799000)) ++ "s" ∧
    formatCountdown (getNextFriday5pmPstUtcMs 1768006799000 - 1768006799000) = "00h 00m 01s" := by
  have h := c7_countdown 1768006799000
  exact ⟨h.1, h.2.2.2.2.2.1 (by decide), h.2.2.2.2.2.2 (by decide)⟩

set_option maxRecDepth 10000 in
set_option maxHeartbeats 1000000 in
/-- Witness for C9 at two instants of Wednesday 2026-01-07 12:00 Pacific time
differing by 20 seconds (and 500 ms within the same minute). -/
theorem c9_witness :
    getNextFriday5pmPstUtcMs 1767816000500 = getNextFriday5pmPstUtcMs 1767816020500 :=
  c9_fields_determine 1767816000500 1767816020500
    (by decide) (by decide) (by decide) (by decide) (by decide) (by decide)

/-- Witness for C10 at the negative input -5000 ms. -/
theorem c10_witness :
    86400 * cdDays (-5000) + 3600 * cdHours (-5000) + 60 * cdMinutes (-5000)
        + cdSeconds (-5000) = max 0 (-5000) / 1000 ∧
    0 ≤ cdHours (-5000) ∧ cdHours (-5000) < 24 ∧
    0 ≤ cdMinutes (-5000) ∧ cdMinutes (-5000) < 60 ∧
    0 ≤ cdSeconds (-5000) ∧ cdSeconds (-5000) < 60 ∧
    formatCountdown (-5000) = "00h 00m 00s" := by
  have h := c10_formatCountdown_total (-5000)
  exact ⟨h.1, h.2.1, h.2.2.1, h.2.2.2.1, h.2.2.2.2.1, h.2.2.2.2.2.1, h.2.2.2.2.2.2.1,
    h.2.2.2.2.2.2.2 (by norm_num)⟩
